import Mathlib

/-!
Verification of the MicroTest engine (src/lib/test-framework.js).

The development shallowly embeds the framework in Lean:
  - JavaScript values handled by the assertion engine become the inductive
    type `JSVal`; object identity is not tracked, so the strict-equality
    operator compares two object values as distinct references (false),
    which matches every claim considered here (all object operands are
    freshly constructed literals).
  - Test bodies and hooks are awaited sequentially by the runner, so each
    is summarized by an `Async` record: the wall-clock milliseconds it
    takes to settle and whether it resolves or rejects.  Wall-clock time
    is the discrete sum of the durations of the awaited steps, matching
    the single-threaded event-loop model of the source.
  - The mutable `this.results` object of the `MicroTest` class is threaded
    explicitly through the runner functions.
-/

/-- Model of the JavaScript values handled by the assertion engine.  An
object carries the name of its constructor (`"Object"` for plain literals)
and its own enumerable fields in insertion order; a JS object cannot have
two own fields with the same key, so every `obj` built below has distinct
keys. -/
inductive JSVal where
  | undef : JSVal
  | null : JSVal
  | bool : Bool → JSVal
  | num : Int → JSVal
  | nan : JSVal
  | str : String → JSVal
  | arr : List JSVal → JSVal
  | obj : String → List (String × JSVal) → JSVal
deriving Repr

/-- Model of the JavaScript strict equality operator `===`: no coercion,
`NaN === NaN` is false, and two object or array values compare as distinct
references (false). -/
def jsStrictEq : JSVal → JSVal → Bool
  | .undef, .undef => true
  | .null, .null => true
  | .bool a, .bool b => a == b
  | .num a, .num b => a == b
  | .str a, .str b => a == b
  | _, _ => false

/-- Model of `Object.is`: like `===` except that `Object.is(NaN, NaN)` is
true.  The `+0` versus `-0` distinction is not representable with `Int`
numbers and is not used by any claim. -/
def jsObjectIs : JSVal → JSVal → Bool
  | .nan, .nan => true
  | a, b => jsStrictEq a b

/-- Model of the loose-null test `x == null`, true exactly for `null` and
`undefined`. -/
def isNullish : JSVal → Bool
  | .undef => true
  | .null => true
  | _ => false

/-- Model of the JavaScript `typeof` operator on the embedded values;
note `typeof null` is `"object"`. -/
def JSVal.typeOf : JSVal → String
  | .undef => "undefined"
  | .null => "object"
  | .bool _ => "boolean"
  | .num _ => "number"
  | .nan => "number"
  | .str _ => "string"
  | .arr _ => "object"
  | .obj _ _ => "object"

/-- Model of `Array.isArray`. -/
def isArray : JSVal → Bool
  | .arr _ => true
  | _ => false

/-- Property lookup `a[key]` on the field list of an object: the stored
value, or `undefined` when the key is absent. -/
def getProp : List (String × JSVal) → String → JSVal
  | [], _ => .undef
  | kv :: rest, key => if kv.1 == key then kv.2 else getProp rest key

/-- Model of `Object.keys` on an object field list. -/
def jsKeys (fields : List (String × JSVal)) : List String :=
  fields.map Prod.fst

/-- Model of the `.constructor` name read by `Expect.strictEqual`.  In
JavaScript, reading `.constructor` on `null` or `undefined` throws a
TypeError; the total model returns a marker string instead.  No claim
settled here reaches that case. -/
def jsConstructor : JSVal → String
  | .arr _ => "Array"
  | .obj c _ => c
  | .bool _ => "Boolean"
  | .num _ => "Number"
  | .nan => "Number"
  | .str _ => "String"
  | .undef => "TypeErrorUndefined"
  | .null => "TypeErrorNull"

namespace Expect

mutual
/-- Translation of `Expect.deepEqual` (test-framework.js lines 539-559).
`deepEqualElems` renders `a.every((item, index) => deepEqual(item,
b[index]))`, where an out-of-range index reads `undefined`; it is invoked
only after the length check, exactly as in the source.  `deepEqualFields`
renders `keysA.every((key) => deepEqual(a[key], b[key]))`: since the own
keys of a JS object are distinct, walking the field list of `a` visits the
same pairs as walking `Object.keys(a)`, and `b[key]` is `getProp` with
`undefined` for an absent key. -/
def deepEqual (a b : JSVal) : Bool :=
  if jsStrictEq a b then true
  else if isNullish a || isNullish b then false
  else if a.typeOf != b.typeOf then false
  else if a.typeOf != "object" then jsStrictEq a b
  else
    match a, b with
    | .arr xs, .arr ys =>
        if xs.length != ys.length then false
        else deepEqualElems xs ys
    | .arr _, _ => false
    | _, .arr _ => false
    | .obj _ fa, .obj _ fb =>
        if (jsKeys fa).length != (jsKeys fb).length then false
        else deepEqualFields fa fb
    | _, _ => false

def deepEqualElems : List JSVal → List JSVal → Bool
  | [], _ => true
  | x :: xs, [] => deepEqual x .undef && deepEqualElems xs []
  | x :: xs, y :: ys => deepEqual x y && deepEqualElems xs ys

def deepEqualFields : List (String × JSVal) → List (String × JSVal) → Bool
  | [], _ => true
  | kv :: rest, fb => deepEqual kv.2 (getProp fb kv.1) && deepEqualFields rest fb
end

/-- Translation of `Expect.strictEqual` (test-framework.js lines 562-571):
reference or primitive equality, then same `typeof`, objects only, same
array-ness, same constructor, and finally `deepEqual`. -/
def strictEqual (a b : JSVal) : Bool :=
  if jsStrictEq a b then true
  else if a.typeOf != b.typeOf then false
  else if a.typeOf != "object" then false
  else if isArray a != isArray b then false
  else if jsConstructor a != jsConstructor b then false
  else deepEqual a b

/-- Display helper standing in for `JSON.stringify` inside assertion
messages.  The claims settled here depend only on whether a matcher
throws, never on the rendered message text, so nested containers are
abbreviated. -/
def jsonStringify : JSVal → String
  | .undef => "undefined"
  | .null => "null"
  | .nan => "null"
  | .bool b => if b then "true" else "false"
  | .num n => toString n
  | .str s => "\"" ++ s ++ "\""
  | .arr _ => "[...]"
  | .obj _ _ => "\x7b...\x7d"

/-- Translation of `Expect.toBe` (lines 312-319).  The `isNot` argument is
the negation flag toggled by the `not` getter; the matcher throws exactly
when `passed === isNot`. -/
def toBe (isNot : Bool) (actual expected : JSVal) : Except String Unit :=
  let passed := jsObjectIs actual expected
  if passed == isNot then
    Except.error ("Expected " ++ jsonStringify actual ++ " " ++
      (if isNot then "not " else "") ++ "to be " ++ jsonStringify expected)
  else Except.ok ()

/-- Translation of `Expect.toEqual` (lines 321-328). -/
def toEqual (isNot : Bool) (actual expected : JSVal) : Except String Unit :=
  let passed := deepEqual actual expected
  if passed == isNot then
    Except.error ("Expected " ++ jsonStringify actual ++ " " ++
      (if isNot then "not " else "") ++ "to equal " ++ jsonStringify expected)
  else Except.ok ()

/-- Translation of `Expect.toStrictEqual` (lines 330-337). -/
def toStrictEqual (isNot : Bool) (actual expected : JSVal) : Except String Unit :=
  let passed := strictEqual actual expected
  if passed == isNot then
    Except.error ("Expected " ++ jsonStringify actual ++ " " ++
      (if isNot then "not " else "") ++ "to strictly equal " ++ jsonStringify expected)
  else Except.ok ()

end Expect

/-- Result of awaiting a user-supplied test body or hook: how many
wall-clock milliseconds it takes to settle, and whether it resolves
(`ok`) or rejects with an error message. -/
inductive Outcome where
  | ok : Outcome
  | err : String → Outcome
deriving Repr, DecidableEq

/-- A user-supplied callable as seen by the runner: the runner awaits it,
which consumes `duration` milliseconds and produces `result`. -/
structure Async where
  duration : Nat
  result : Outcome
deriving Repr, DecidableEq

/-- Options object accepted by `it(name, fn, options)`.  A missing
`timeout` field is `none`; the source reads `options.timeout || 5000`, so
an explicit `0` also falls back to the default. -/
structure TestOptions where
  skip : Bool := false
  only : Bool := false
  timeout : Option Nat := none

/-- A registered test (test-framework.js lines 63-69). -/
structure TestCase where
  name : String
  fn : Async
  skip : Bool
  only : Bool
  timeout : Nat
deriving Repr

/-- A suite node (test-framework.js lines 29-37): name, direct tests, the
four hook lists, and nested child suites, in the order of the object
literal in `describe`. -/
inductive Suite where
  | mk : String → List TestCase → List Async → List Async → List Async →
      List Async → List Suite → Suite

def Suite.name : Suite → String
  | .mk n _ _ _ _ _ _ => n

def Suite.tests : Suite → List TestCase
  | .mk _ ts _ _ _ _ _ => ts

def Suite.beforeEachHooks : Suite → List Async
  | .mk _ _ be _ _ _ _ => be

def Suite.afterEachHooks : Suite → List Async
  | .mk _ _ _ ae _ _ _ => ae

def Suite.beforeAllHooks : Suite → List Async
  | .mk _ _ _ _ ba _ _ => ba

def Suite.afterAllHooks : Suite → List Async
  | .mk _ _ _ _ _ aa _ => aa

def Suite.nested : Suite → List Suite
  | .mk _ _ _ _ _ _ ns => ns

/-- Per-test result record (test-framework.js lines 212-217). -/
structure TestResult where
  name : String
  passed : Bool
  error : Option String
  duration : Nat
deriving Repr, DecidableEq

/-- Per-suite result record (test-framework.js lines 145-151). -/
structure SuiteResult where
  name : String
  passed : Nat
  failed : Nat
  skipped : Nat
  tests : List TestResult
deriving Repr, DecidableEq

/-- The aggregate report `this.results` (test-framework.js lines 11-18). -/
structure Results where
  passed : Nat
  failed : Nat
  skipped : Nat
  total : Nat
  duration : Nat
  suites : List SuiteResult
deriving Repr, DecidableEq

/-- The zeroed report installed by the constructor. -/
def initialResults : Results :=
  { passed := 0, failed := 0, skipped := 0, total := 0, duration := 0, suites := [] }

/-- The mutable state of a `MicroTest` instance (constructor, lines 8-23).
The four top-level hook arrays are created by the constructor but never
read by any method; they are carried here for fidelity only. -/
structure Engine where
  suites : List Suite
  currentSuite : Option Suite
  results : Results
  beforeEachHooks : List Async := []
  afterEachHooks : List Async := []
  beforeAllHooks : List Async := []
  afterAllHooks : List Async := []

/-- State of `new MicroTest()`. -/
def initEngine : Engine :=
  { suites := [], currentSuite := none, results := initialResults }

namespace MicroTest

def Suite.addTest : Suite → TestCase → Suite
  | .mk n ts be ae ba aa ns, t => .mk n (ts ++ [t]) be ae ba aa ns

def Suite.addBeforeEach : Suite → Async → Suite
  | .mk n ts be ae ba aa ns, h => .mk n ts (be ++ [h]) ae ba aa ns

def Suite.addAfterEach : Suite → Async → Suite
  | .mk n ts be ae ba aa ns, h => .mk n ts be (ae ++ [h]) ba aa ns

def Suite.addBeforeAll : Suite → Async → Suite
  | .mk n ts be ae ba aa ns, h => .mk n ts be ae (ba ++ [h]) aa ns

def Suite.addAfterAll : Suite → Async → Suite
  | .mk n ts be ae ba aa ns, h => .mk n ts be ae ba (aa ++ [h]) ns

/-- Translation of `MicroTest.it` (lines 58-70): with no current suite the
call throws (modelled as `Except.error`) and registers nothing; otherwise
the test is appended to the current suite, with `options.skip || false`,
`options.only || false` and `options.timeout || 5000` defaulting. -/
def it (e : Engine) (name : String) (fn : Async) (opts : TestOptions) :
    Except String Engine :=
  match e.currentSuite with
  | none => Except.error "Tests must be defined inside a describe block"
  | some s =>
      Except.ok { e with currentSuite := some (Suite.addTest s
        { name := name, fn := fn, skip := opts.skip, only := opts.only,
          timeout := opts.timeout.elim 5000 fun t => if t == 0 then 5000 else t }) }

/-- Translation of `MicroTest.test` (lines 75-77), an alias for `it`. -/
def test (e : Engine) (name : String) (fn : Async) (opts : TestOptions) :
    Except String Engine :=
  it e name fn opts

/-- Translation of `MicroTest.beforeEach` (lines 96-100): the body is a
bare `if (this.currentSuite)` guard with no else branch, so with no
current suite the call neither registers a hook nor throws.  The
`Except` return type makes "does not throw" expressible; this function
always returns `Except.ok`. -/
def beforeEach (e : Engine) (fn : Async) : Except String Engine :=
  match e.currentSuite with
  | none => Except.ok e
  | some s => Except.ok { e with currentSuite := some (Suite.addBeforeEach s fn) }

/-- Translation of `MicroTest.afterEach` (lines 102-106), same shape as
`beforeEach`. -/
def afterEach (e : Engine) (fn : Async) : Except String Engine :=
  match e.currentSuite with
  | none => Except.ok e
  | some s => Except.ok { e with currentSuite := some (Suite.addAfterEach s fn) }

/-- Translation of `MicroTest.beforeAll` (lines 108-112), same shape as
`beforeEach`. -/
def beforeAll (e : Engine) (fn : Async) : Except String Engine :=
  match e.currentSuite with
  | none => Except.ok e
  | some s => Except.ok { e with currentSuite := some (Suite.addBeforeAll s fn) }

/-- Translation of `MicroTest.afterAll` (lines 114-118), same shape as
`beforeEach`. -/
def afterAll (e : Engine) (fn : Async) : Except String Engine :=
  match e.currentSuite with
  | none => Except.ok e
  | some s => Except.ok { e with currentSuite := some (Suite.addAfterAll s fn) }

/-- Translation of `MicroTest.withTimeout` (lines 264-269): the body
promise is raced against a timer that rejects after `timeout`
milliseconds with the message naming the duration.  The race settles at
the earlier of the two settle times; when the body takes strictly longer
than the timer, the timer rejection wins. -/
def withTimeout (p : Async) (timeout : Nat) : Async :=
  if timeout < p.duration then
    { duration := timeout,
      result := .err ("Test timeout after " ++ toString timeout ++ "ms") }
  else p

/-- Outcome of awaiting the `beforeEach` hooks in order (lines 221-223):
each hook is awaited; the first rejection propagates to the enclosing
catch, so later hooks do not run and the elapsed time stops there. -/
structure HookRun where
  time : Nat
  error : Option String
deriving Repr, DecidableEq

def runBeforeEach : List Async → HookRun
  | [] => { time := 0, error := none }
  | h :: rest =>
    match h.result with
    | .err m => { time := h.duration, error := some m }
    | .ok =>
        let r := runBeforeEach rest
        { time := h.duration + r.time, error := r.error }

/-- The `finally` loop over the `afterEach` hooks (lines 249-255): every
hook is awaited, each rejection is caught and logged individually, so the
returned outcome list covers the whole hook list in declaration order. -/
def runAfterEach : List Async → Nat × List Outcome
  | [] => (0, [])
  | h :: rest =>
      let p := runAfterEach rest
      (h.duration + p.1, h.result :: p.2)

/-- Observable effect of `MicroTest.runTest` on one test: the recorded
`TestResult`, whether the body was invoked, the outcomes of the
`afterEach` hooks that ran, and the total elapsed time of the whole
try-catch-finally block. -/
structure TestExec where
  result : TestResult
  bodyRan : Bool
  afterOutcomes : List Outcome
  totalTime : Nat
deriving Repr, DecidableEq

/-- Translation of `MicroTest.runTest` (lines 209-259).  `startTime` is
taken on entry, before the `beforeEach` loop; `endTime` is taken right
after the raced body settles (or in the catch block), so the recorded
duration covers the `beforeEach` hooks plus the raced body, and never the
`afterEach` hooks, which run in the `finally` block afterwards. -/
def runTest (t : TestCase) (beH aeH : List Async) : TestExec :=
  let before := runBeforeEach beH
  let after := runAfterEach aeH
  match before.error with
  | some m =>
      { result := { name := t.name, passed := false, error := some m,
                    duration := before.time },
        bodyRan := false, afterOutcomes := after.2,
        totalTime := before.time + after.1 }
  | none =>
      let raced := withTimeout t.fn t.timeout
      match raced.result with
      | .ok =>
          { result := { name := t.name, passed := true, error := none,
                        duration := before.time + raced.duration },
            bodyRan := true, afterOutcomes := after.2,
            totalTime := before.time + raced.duration + after.1 }
      | .err m =>
          { result := { name := t.name, passed := false, error := some m,
                        duration := before.time + raced.duration },
            bodyRan := true, afterOutcomes := after.2,
            totalTime := before.time + raced.duration + after.1 }

/-- The test loop of `MicroTest.runSuite` (lines 166-187), threading the
local `suiteResults` record and the aggregate `this.results`.  With focus
mode active a non-focused test is passed over entirely (`continue`),
before the skip check; a skipped test bumps `skipped` and `total`; an
executed test is appended to `suiteResults.tests` and bumps `passed` or
`failed` and `total`. -/
def runTestsLoop (beH aeH : List Async) (ho : Bool) :
    List TestCase → SuiteResult → Results → SuiteResult × Results
  | [], sr, r => (sr, r)
  | t :: rest, sr, r =>
    if ho && !t.only then runTestsLoop beH aeH ho rest sr r
    else if t.skip then
      runTestsLoop beH aeH ho rest
        { sr with skipped := sr.skipped + 1 }
        { r with skipped := r.skipped + 1, total := r.total + 1 }
    else
      let ex := runTest t beH aeH
      let sr2 := { sr with
        tests := sr.tests ++ [ex.result],
        passed := if ex.result.passed then sr.passed + 1 else sr.passed,
        failed := if ex.result.passed then sr.failed else sr.failed + 1 }
      let r2 := { r with
        passed := if ex.result.passed then r.passed + 1 else r.passed,
        failed := if ex.result.passed then r.failed else r.failed + 1,
        total := r.total + 1 }
      runTestsLoop beH aeH ho rest sr2 r2

mutual
/-- Translation of `MicroTest.runSuite` (lines 141-204) as a transformer
of the aggregate `this.results`.  The `beforeAll` and `afterAll` hooks
are awaited with every rejection caught and logged, so they touch no
counter; focus mode `hasOnly` is recomputed per node from its direct
tests; nested suites run after the direct tests; the local suite record
is pushed onto `results.suites` last. -/
def runSuite (s : Suite) (r : Results) : Results :=
  match s with
  | .mk name tests beH aeH _ _ nested =>
    let ho := tests.any fun t => t.only
    let p := runTestsLoop beH aeH ho tests
      { name := name, passed := 0, failed := 0, skipped := 0, tests := [] } r
    let r2 := runSuites nested p.2
    { r2 with suites := r2.suites ++ [p.1] }

/-- The loop over suites in `MicroTest.run` (lines 127-129) and over
nested suites (lines 190-192). -/
def runSuites : List Suite → Results → Results
  | [], r => r
  | s :: rest, r => runSuites rest (runSuite s r)
end

/-- Milliseconds consumed by one iteration of the test loop. -/
def testTime (beH aeH : List Async) (ho : Bool) (t : TestCase) : Nat :=
  if ho && !t.only then 0
  else if t.skip then 0
  else (runTest t beH aeH).totalTime

/-- Milliseconds consumed awaiting a hook list where every hook runs. -/
def hooksTime (hs : List Async) : Nat :=
  (hs.map fun h => h.duration).sum

mutual
/-- Wall-clock milliseconds consumed by `runSuite` on one node. -/
def suiteTime : Suite → Nat
  | .mk _ tests beH aeH baH aaH nested =>
    hooksTime baH +
      ((tests.map (testTime beH aeH (tests.any fun t => t.only))).sum) +
      suitesTime nested + hooksTime aaH

/-- Wall-clock milliseconds consumed by a list of suites. -/
def suitesTime : List Suite → Nat
  | [] => 0
  | s :: rest => suiteTime s + suitesTime rest
end

/-- Translation of `MicroTest.run` (lines 123-136): walk every top-level
suite against the current `this.results` (which is never reset), then
overwrite `results.duration` with the wall-clock time of the whole walk,
and return the engine whose `results` is the report the caller receives. -/
def run (e : Engine) : Engine :=
  let r := runSuites e.suites e.results
  { e with results := { r with duration := suitesTime e.suites } }

end MicroTest

namespace MicroTest

/-- Counter contribution of one pass over a test list: how many tests the
loop records as passed, failed and skipped.  Tests passed over by focus
mode contribute to no component. -/
def loopDelta (beH aeH : List Async) (ho : Bool) : List TestCase → Nat × Nat × Nat
  | [] => (0, 0, 0)
  | t :: rest =>
    let d := loopDelta beH aeH ho rest
    if ho && !t.only then d
    else if t.skip then (d.1, d.2.1, d.2.2 + 1)
    else if (runTest t beH aeH).result.passed then (d.1 + 1, d.2.1, d.2.2)
    else (d.1, d.2.1 + 1, d.2.2)

def addTriple (x y : Nat × Nat × Nat) : Nat × Nat × Nat :=
  (x.1 + y.1, x.2.1 + y.2.1, x.2.2 + y.2.2)

mutual
/-- Counter contribution of a whole suite subtree. -/
def suiteDelta : Suite → Nat × Nat × Nat
  | .mk _ tests beH aeH _ _ nested =>
    addTriple (loopDelta beH aeH (tests.any fun t => t.only) tests)
      (suitesDelta nested)

def suitesDelta : List Suite → Nat × Nat × Nat
  | [] => (0, 0, 0)
  | s :: rest => addTriple (suiteDelta s) (suitesDelta rest)
end

mutual
/-- Number of suite nodes in a subtree: each contributes one entry to
`results.suites`. -/
def nodeCount : Suite → Nat
  | .mk _ _ _ _ _ _ nested => nodesCount nested + 1

def nodesCount : List Suite → Nat
  | [] => 0
  | s :: rest => nodeCount s + nodesCount rest
end

mutual
/-- Specification-side rendering of the focus rule of the spec: at every
suite node independently, if any direct test is marked `only` then the
node keeps exactly its `only`-marked direct tests, otherwise it keeps all
of them; hooks and the nested structure are untouched.  Comparing a run
of this filtered tree with a run of the original tree is the formal
content of claim C4. -/
def Suite.focusFiltered : Suite → Suite
  | .mk n tests be ae ba aa nested =>
    .mk n
      (if tests.any fun t => t.only then tests.filter fun t => t.only else tests)
      be ae ba aa (focusFilteredList nested)

def focusFilteredList : List Suite → List Suite
  | [] => []
  | s :: rest => Suite.focusFiltered s :: focusFilteredList rest
end

end MicroTest

/-- Concrete one-suite, one-passing-test tree used by witnesses and the
claim C2 counterexample. -/
def oneTestSuite : Suite :=
  .mk "math"
    [{ name := "adds", fn := { duration := 1, result := .ok }, skip := false,
       only := false, timeout := 5000 }]
    [] [] [] [] []

/-- Engine holding `oneTestSuite`, with the constructor-fresh report. -/
def engine0 : Engine :=
  { suites := [oneTestSuite], currentSuite := none, results := initialResults }

/-- A test whose body would resolve successfully after 10ms, raced
against a 5ms timeout (claim C3). -/
def slowTest : TestCase :=
  { name := "slow", fn := { duration := 10, result := .ok }, skip := false,
    only := false, timeout := 5 }

/-- Test and hooks for the claim C6 witness: the single `beforeEach` hook
rejects, the first of two `afterEach` hooks rejects. -/
def t6 : TestCase :=
  { name := "hooked", fn := { duration := 1, result := .ok }, skip := false,
    only := false, timeout := 5000 }

def bH6 : List Async := [{ duration := 2, result := .err "boom" }]

def aH6 : List Async :=
  [{ duration := 1, result := .err "afterfail" }, { duration := 1, result := .ok }]

/-- Two plain objects with disjoint key sets whose only values are
`undefined` (claim C7 counterexample). -/
def c7a : JSVal := .obj "Object" [("x", .undef)]

def c7b : JSVal := .obj "Object" [("y", .undef)]

/-- Two plain objects identical except for the constructor of the nested
object stored under `"x"` (claim C8 counterexample). -/
def fooInner : JSVal := .obj "Foo" [("v", .num 1)]

def barInner : JSVal := .obj "Bar" [("v", .num 1)]

def c8a : JSVal := .obj "Object" [("x", fooInner)]

def c8b : JSVal := .obj "Object" [("x", barInner)]

/-- A 5ms test body with a 10ms `beforeEach` hook (claim C9
counterexample). -/
def c9test : TestCase :=
  { name := "timed", fn := { duration := 5, result := .ok }, skip := false,
    only := false, timeout := 5000 }

def c9hook : Async := { duration := 10, result := .ok }

/-- A suite in which the first direct test is focus-marked and the second
is not (claim C4 witness). -/
def focusSuite : Suite :=
  .mk "focus"
    [{ name := "a", fn := { duration := 1, result := .ok }, skip := false,
       only := true, timeout := 5000 },
     { name := "b", fn := { duration := 1, result := .ok }, skip := false,
       only := false, timeout := 5000 }]
    [] [] [] [] []

namespace Expect

theorem deepEqualFields_iff (fa fb : List (String × JSVal)) :
    deepEqualFields fa fb = true ↔
      ∀ kv ∈ fa, deepEqual kv.2 (getProp fb kv.1) = true := by
  induction fa with
  | nil => simp [deepEqualFields]
  | cons kv rest ih => simp [deepEqualFields, Bool.and_eq_true, ih]

theorem deepEqual_obj (ca cb : String) (fa fb : List (String × JSVal)) :
    deepEqual (.obj ca fa) (.obj cb fb) =
      if (jsKeys fa).length != (jsKeys fb).length then false
      else deepEqualFields fa fb := rfl

theorem toEqual_ok_iff (a b : JSVal) :
    toEqual false a b = Except.ok () ↔ deepEqual a b = true := by
  unfold toEqual
  cases h : deepEqual a b <;> simp [h]

end Expect

/-- Claim C7, counterexample: the two plain objects with own-key sets
`{"x"}` and `{"y"}` (which differ) nevertheless satisfy `deepEqual`, and
`toEqual` passes on them, because the key comparison of lines 553-558
checks only the key counts and then reads the missing key of `b` as
`undefined`, which compares equal to the stored `undefined`.  The claim
says any two mappings with differing own-key sets are reported unequal,
so it fails here. -/
theorem c7_counterexample :
    Expect.deepEqual c7a c7b = true ∧
    Expect.toEqual false c7a c7b = Except.ok () ∧
    c7a = .obj "Object" [("x", .undef)] ∧
    c7b = .obj "Object" [("y", .undef)] ∧
    ("x" : String) ≠ "y" :=
  ⟨by decide, rfl, rfl, rfl, by decide⟩

/-- Claim C7, amended: `toEqual` on two mappings passes exactly when the
two own-key lists have equal length and, for every own key of the first
mapping, the value of the second mapping under that key (read as
`undefined` when the key is absent) is recursively deep-equal to the
value of the first.  Key sets that differ may still compare equal, but
only at keys whose values compare equal to `undefined`. -/
theorem c7_amended (ca cb : String) (fa fb : List (String × JSVal)) :
    Expect.toEqual false (.obj ca fa) (.obj cb fb) = Except.ok () ↔
      (fa.length = fb.length ∧
        ∀ kv ∈ fa, Expect.deepEqual kv.2 (getProp fb kv.1) = true) := by
  rw [Expect.toEqual_ok_iff, Expect.deepEqual_obj]
  by_cases h : fa.length = fb.length
  · simp [jsKeys, h, Expect.deepEqualFields_iff]
  · simp [jsKeys, h]

/-- Claim C7 witness: the amended characterization applied to two
single-field mappings with the same key and equal numeric values. -/
theorem c7_witness :
    Expect.toEqual false (.obj "Object" [("k", .num 1)])
      (.obj "Object" [("k", .num 1)]) = Except.ok () :=
  (c7_amended "Object" "Object" [("k", .num 1)] [("k", .num 1)]).mpr
    ⟨rfl, by decide⟩

/-- Claim C8, counterexample: two plain objects whose nested values under
`"x"` are built from different constructors (`Foo` versus `Bar`) but have
identical structure.  `toStrictEqual` passes on them because the
constructor comparison of line 568 runs at the top level only before
delegating to `deepEqual`, which never inspects constructors.  The claim
requires the same constructing type at every level, so it fails here. -/
theorem c8_counterexample :
    Expect.strictEqual c8a c8b = true ∧
    Expect.toStrictEqual false c8a c8b = Except.ok () ∧
    getProp [("x", fooInner)] "x" = fooInner ∧
    getProp [("x", barInner)] "x" = barInner ∧
    jsConstructor fooInner = "Foo" ∧
    jsConstructor barInner = "Bar" ∧
    ("Foo" : String) ≠ "Bar" :=
  ⟨by decide, rfl, rfl, rfl, rfl, rfl, by decide⟩

/-- Claim C8, amended: `toStrictEqual` checks the concrete constructor
and the container kind at the top level only, and then requires plain
deep equality: on two non-array objects it is constructor equality
conjoined with `deepEqual`, on two arrays it coincides with `deepEqual`,
and on mixed container kinds it is false.  Deep equality itself enforces
the array/non-array distinction at every level, but constructors below
the top level are never compared. -/
theorem c8_amended :
    (∀ ca cb fa fb, Expect.strictEqual (.obj ca fa) (.obj cb fb) =
        ((ca == cb) && Expect.deepEqual (.obj ca fa) (.obj cb fb))) ∧
    (∀ xs ys, Expect.strictEqual (.arr xs) (.arr ys) =
        Expect.deepEqual (.arr xs) (.arr ys)) ∧
    (∀ xs cb fb, Expect.strictEqual (.arr xs) (.obj cb fb) = false ∧
        Expect.strictEqual (.obj cb fb) (.arr xs) = false) := by
  refine ⟨fun ca cb fa fb => ?_, fun xs ys => rfl, fun xs cb fb => ⟨rfl, rfl⟩⟩
  have h0 : Expect.strictEqual (.obj ca fa) (.obj cb fb) =
      if ca != cb then false else Expect.deepEqual (.obj ca fa) (.obj cb fb) := rfl
  rw [h0]
  cases h : ca == cb <;> simp [bne, h]

/-- Claim C10: on `NaN`, `toBe` passes because `Object.is(NaN, NaN)` is
true, while `toEqual` throws because `deepEqual` compares primitive
numbers with `===`, under which `NaN` is unequal to itself. -/
theorem c10_nan_matchers :
    jsObjectIs .nan .nan = true ∧
    Expect.toBe false .nan .nan = Except.ok () ∧
    jsStrictEq .nan .nan = false ∧
    Expect.deepEqual .nan .nan = false ∧
    (∃ m, Expect.toEqual false .nan .nan = Except.error m) :=
  ⟨by decide, rfl, by decide, by decide, ⟨_, rfl⟩⟩

namespace MicroTest

theorem runAfterEach_outcomes (hs : List Async) :
    (runAfterEach hs).2 = hs.map fun h => h.result := by
  induction hs with
  | nil => rfl
  | cons h rest ih => simp [runAfterEach, ih]

theorem runTest_afterOutcomes (t : TestCase) (beH aeH : List Async) :
    (runTest t beH aeH).afterOutcomes = aeH.map fun h => h.result := by
  unfold runTest
  cases h1 : (runBeforeEach beH).error <;>
    cases h2 : (withTimeout t.fn t.timeout).result <;>
      simp [h1, h2, runAfterEach_outcomes]

theorem runTest_result_independent_of_afterEach (t : TestCase)
    (beH ae1 ae2 : List Async) :
    (runTest t beH ae1).result = (runTest t beH ae2).result := by
  unfold runTest
  cases h1 : (runBeforeEach beH).error <;>
    cases h2 : (withTimeout t.fn t.timeout).result <;> simp [h1, h2]

theorem runTest_beforeEach_failure (t : TestCase) (beH aeH : List Async)
    (m : String) (h : (runBeforeEach beH).error = some m) :
    (runTest t beH aeH).result =
      { name := t.name, passed := false, error := some m,
        duration := (runBeforeEach beH).time } ∧
    (runTest t beH aeH).bodyRan = false := by
  unfold runTest
  simp [h]

end MicroTest

/-- Claim C3: a test whose body settles strictly later than its timeout
is recorded failed, with the stored error being the timeout-race message
that names the timeout duration, regardless of whether the body itself
would have resolved or rejected.  The hypothesis that the `beforeEach`
hooks all resolve ensures the body is actually raced. -/
theorem c3_timeout_failure (t : TestCase) (beH aeH : List Async)
    (hb : (MicroTest.runBeforeEach beH).error = none)
    (hl : t.timeout < t.fn.duration) :
    (MicroTest.runTest t beH aeH).result.passed = false ∧
    (MicroTest.runTest t beH aeH).result.error =
      some ("Test timeout after " ++ toString t.timeout ++ "ms") := by
  unfold MicroTest.runTest
  have hw : MicroTest.withTimeout t.fn t.timeout =
      { duration := t.timeout,
        result := .err ("Test timeout after " ++ toString t.timeout ++ "ms") } := by
    unfold MicroTest.withTimeout
    simp [hl]
  simp [hb, hw]

/-- Claim C3 witness: `slowTest` has a 10ms body that would resolve, but
a 5ms timeout; the runner records it failed with the 5ms timeout
message. -/
theorem c3_witness :
    slowTest.fn.result = .ok ∧
    (MicroTest.runTest slowTest [] []).result.passed = false ∧
    (MicroTest.runTest slowTest [] []).result.error =
      some "Test timeout after 5ms" := by
  have h := c3_timeout_failure slowTest [] [] rfl (by decide)
  exact ⟨rfl, h.1, h.2⟩

/-- Claim C6: for every executed test, all `afterEach` hooks of the
enclosing suite run (their outcomes are collected in declaration order,
one per hook), the recorded test result is identical whatever the
`afterEach` hooks do, and a `beforeEach` rejection marks the test failed
with that error while the `afterEach` hooks still all run. -/
theorem c6_afterEach_guarantee (t : TestCase) (beH ae1 ae2 : List Async) :
    (MicroTest.runTest t beH ae1).afterOutcomes = ae1.map (fun h => h.result) ∧
    (MicroTest.runTest t beH ae1).result = (MicroTest.runTest t beH ae2).result ∧
    (∀ m, (MicroTest.runBeforeEach beH).error = some m →
      (MicroTest.runTest t beH ae1).result.passed = false ∧
      (MicroTest.runTest t beH ae1).result.error = some m) :=
  ⟨MicroTest.runTest_afterOutcomes t beH ae1,
   MicroTest.runTest_result_independent_of_afterEach t beH ae1 ae2,
   fun m hm =>
     ⟨by rw [(MicroTest.runTest_beforeEach_failure t beH ae1 m hm).1],
      by rw [(MicroTest.runTest_beforeEach_failure t beH ae1 m hm).1]⟩⟩

/-- Claim C6 witness: with a rejecting `beforeEach` hook and two
`afterEach` hooks (the first rejecting), both `afterEach` hooks still run
in order, and the test is recorded failed with the `beforeEach` error. -/
theorem c6_witness :
    (MicroTest.runTest t6 bH6 aH6).afterOutcomes = [.err "afterfail", .ok] ∧
    (MicroTest.runTest t6 bH6 aH6).result.passed = false ∧
    (MicroTest.runTest t6 bH6 aH6).result.error = some "boom" := by
  have h := c6_afterEach_guarantee t6 bH6 aH6 []
  exact ⟨h.1, (h.2.2 "boom" rfl).1, (h.2.2 "boom" rfl).2⟩

/-- Claim C9, counterexample: a test with a 10ms `beforeEach` hook and a
5ms body records `durationMs = 15`, not the 5ms of the timeout-raced body
invocation alone, because `startTime` (line 211) is read before the
`beforeEach` loop.  This refutes the claim that hook time is excluded. -/
theorem c9_counterexample :
    (MicroTest.runTest c9test [c9hook] []).result.duration = 15 ∧
    (MicroTest.withTimeout c9test.fn c9test.timeout).duration = 5 ∧
    (MicroTest.runTest c9test [c9hook] []).result.duration ≠
      (MicroTest.withTimeout c9test.fn c9test.timeout).duration := by
  refine ⟨by decide, by decide, by decide⟩

/-- Claim C9, amended: the recorded `durationMs` spans the `beforeEach`
hooks of the enclosing suite plus the timeout-raced body invocation (only
the hooks up to a rejecting one when the setup fails), and never the
`afterEach` hooks: the formula below does not depend on `aeH`. -/
theorem c9_amended (t : TestCase) (beH aeH : List Async) :
    (MicroTest.runTest t beH aeH).result.duration =
      (MicroTest.runBeforeEach beH).time +
        ((MicroTest.runBeforeEach beH).error.elim
          (MicroTest.withTimeout t.fn t.timeout).duration fun _ => 0) := by
  unfold MicroTest.runTest
  cases h1 : (MicroTest.runBeforeEach beH).error <;>
    cases h2 : (MicroTest.withTimeout t.fn t.timeout).result <;> simp [h1, h2]

/-- Claim C5, counterexample: with no current suite context, each of the
four hook registrars returns without raising and leaves the engine
unchanged (nothing registered), contradicting the claim that
`declareHook` raises a StructuralError. -/
theorem c5_counterexample :
    MicroTest.beforeEach initEngine { duration := 0, result := .ok } =
      Except.ok initEngine ∧
    MicroTest.afterEach initEngine { duration := 0, result := .ok } =
      Except.ok initEngine ∧
    MicroTest.beforeAll initEngine { duration := 0, result := .ok } =
      Except.ok initEngine ∧
    MicroTest.afterAll initEngine { duration := 0, result := .ok } =
      Except.ok initEngine ∧
    initEngine.currentSuite = none :=
  ⟨rfl, rfl, rfl, rfl, rfl⟩

/-- Claim C5, amended: with no current suite context, `it` and `test`
raise the structural error at registration time and register nothing (the
call aborts with no new state), while the four hook registrars are
silently ignored: they raise nothing and leave the engine unchanged. -/
theorem c5_amended (e : Engine) (nm : String) (f : Async) (o : TestOptions)
    (h : e.currentSuite = none) :
    MicroTest.it e nm f o =
      Except.error "Tests must be defined inside a describe block" ∧
    MicroTest.test e nm f o =
      Except.error "Tests must be defined inside a describe block" ∧
    MicroTest.beforeEach e f = Except.ok e ∧
    MicroTest.afterEach e f = Except.ok e ∧
    MicroTest.beforeAll e f = Except.ok e ∧
    MicroTest.afterAll e f = Except.ok e := by
  simp [MicroTest.it, MicroTest.test, MicroTest.beforeEach, MicroTest.afterEach,
    MicroTest.beforeAll, MicroTest.afterAll, h]

/-- Claim C5 witness: the amended statement applied to the fresh engine,
where no suite context is current. -/
theorem c5_witness :
    MicroTest.it initEngine "orphan" { duration := 0, result := .ok } {} =
      Except.error "Tests must be defined inside a describe block" ∧
    MicroTest.test initEngine "orphan" { duration := 0, result := .ok } {} =
      Except.error "Tests must be defined inside a describe block" ∧
    MicroTest.beforeEach initEngine { duration := 0, result := .ok } =
      Except.ok initEngine ∧
    MicroTest.afterEach initEngine { duration := 0, result := .ok } =
      Except.ok initEngine ∧
    MicroTest.beforeAll initEngine { duration := 0, result := .ok } =
      Except.ok initEngine ∧
    MicroTest.afterAll initEngine { duration := 0, result := .ok } =
      Except.ok initEngine :=
  c5_amended initEngine "orphan" { duration := 0, result := .ok } {} rfl

namespace MicroTest

theorem runTestsLoop_spec (beH aeH : List Async) (ho : Bool) (ts : List TestCase) :
    ∀ (sr : SuiteResult) (r : Results),
      ((runTestsLoop beH aeH ho ts sr r).2).passed =
          r.passed + (loopDelta beH aeH ho ts).1 ∧
      ((runTestsLoop beH aeH ho ts sr r).2).failed =
          r.failed + (loopDelta beH aeH ho ts).2.1 ∧
      ((runTestsLoop beH aeH ho ts sr r).2).skipped =
          r.skipped + (loopDelta beH aeH ho ts).2.2 ∧
      ((runTestsLoop beH aeH ho ts sr r).2).total =
          r.total + ((loopDelta beH aeH ho ts).1 +
            (loopDelta beH aeH ho ts).2.1 + (loopDelta beH aeH ho ts).2.2) ∧
      ((runTestsLoop beH aeH ho ts sr r).2).suites = r.suites ∧
      ((runTestsLoop beH aeH ho ts sr r).2).duration = r.duration := by
  induction ts with
  | nil => intro sr r; simp [runTestsLoop, loopDelta]
  | cons t rest ih =>
    intro sr r
    by_cases h1 : (ho && !t.only) = true
    · simpa [runTestsLoop, loopDelta, h1] using ih sr r
    · by_cases h2 : t.skip = true
      · obtain ⟨e1, e2, e3, e4, e5, e6⟩ :=
          ih { sr with skipped := sr.skipped + 1 }
            { r with skipped := r.skipped + 1, total := r.total + 1 }
        simp at e1 e2 e3 e4 e5 e6
        refine ⟨?_, ?_, ?_, ?_, ?_, ?_⟩ <;>
          simp only [runTestsLoop, loopDelta, h1, h2, Bool.false_eq_true,
            ite_true, ite_false, if_true, if_false] <;>
          simp [e1, e2, e3, e4, e5, e6] <;> omega
      · by_cases h3 : (runTest t beH aeH).result.passed = true
        · obtain ⟨e1, e2, e3, e4, e5, e6⟩ :=
            ih { sr with
                  tests := sr.tests ++ [(runTest t beH aeH).result],
                  passed := sr.passed + 1, failed := sr.failed }
              { r with
                  passed := r.passed + 1, failed := r.failed,
                  total := r.total + 1 }
          simp at e1 e2 e3 e4 e5 e6
          refine ⟨?_, ?_, ?_, ?_, ?_, ?_⟩ <;>
            simp only [runTestsLoop, loopDelta, h1, h2, h3, Bool.false_eq_true,
              ite_true, ite_false, if_true, if_false] <;>
            simp [e1, e2, e3, e4, e5, e6] <;> omega
        · obtain ⟨e1, e2, e3, e4, e5, e6⟩ :=
            ih { sr with
                  tests := sr.tests ++ [(runTest t beH aeH).result],
                  passed := sr.passed, failed := sr.failed + 1 }
              { r with
                  passed := r.passed, failed := r.failed + 1,
                  total := r.total + 1 }
          simp at e1 e2 e3 e4 e5 e6
          refine ⟨?_, ?_, ?_, ?_, ?_, ?_⟩ <;>
            simp only [runTestsLoop, loopDelta, h1, h2, h3, Bool.false_eq_true,
              ite_true, ite_false, if_true, if_false] <;>
            simp [e1, e2, e3, e4, e5, e6] <;> omega

end MicroTest

namespace MicroTest

mutual
theorem runSuite_spec (s : Suite) (r : Results) :
    (runSuite s r).passed = r.passed + (suiteDelta s).1 ∧
    (runSuite s r).failed = r.failed + (suiteDelta s).2.1 ∧
    (runSuite s r).skipped = r.skipped + (suiteDelta s).2.2 ∧
    (runSuite s r).total = r.total + ((suiteDelta s).1 +
      (suiteDelta s).2.1 + (suiteDelta s).2.2) ∧
    (runSuite s r).duration = r.duration ∧
    (runSuite s r).suites.length = r.suites.length + nodeCount s := by
  match s with
  | .mk n tests beH aeH baH aaH nested =>
    obtain ⟨p1, p2, p3, p4, p5, p6⟩ :=
      runTestsLoop_spec beH aeH (tests.any fun t => t.only) tests
        { name := n, passed := 0, failed := 0, skipped := 0, tests := [] } r
    obtain ⟨q1, q2, q3, q4, q5, q6⟩ :=
      runSuites_spec nested
        (runTestsLoop beH aeH (tests.any fun t => t.only) tests
          { name := n, passed := 0, failed := 0, skipped := 0, tests := [] } r).2
    refine ⟨?_, ?_, ?_, ?_, ?_, ?_⟩ <;>
      simp only [runSuite, suiteDelta, nodeCount, addTriple] <;>
      simp [q1, q2, q3, q4, q5, q6, p1, p2, p3, p4, p5, p6] <;> omega

theorem runSuites_spec (l : List Suite) (r : Results) :
    (runSuites l r).passed = r.passed + (suitesDelta l).1 ∧
    (runSuites l r).failed = r.failed + (suitesDelta l).2.1 ∧
    (runSuites l r).skipped = r.skipped + (suitesDelta l).2.2 ∧
    (runSuites l r).total = r.total + ((suitesDelta l).1 +
      (suitesDelta l).2.1 + (suitesDelta l).2.2) ∧
    (runSuites l r).duration = r.duration ∧
    (runSuites l r).suites.length = r.suites.length + nodesCount l := by
  match l with
  | [] => simp [runSuites, suitesDelta, nodesCount]
  | s :: rest =>
    obtain ⟨a1, a2, a3, a4, a5, a6⟩ := runSuite_spec s r
    obtain ⟨b1, b2, b3, b4, b5, b6⟩ := runSuites_spec rest (runSuite s r)
    refine ⟨?_, ?_, ?_, ?_, ?_, ?_⟩ <;>
      simp only [runSuites, suitesDelta, nodesCount, addTriple] <;>
      simp [b1, b2, b3, b4, b5, b6, a1, a2, a3, a4, a5, a6] <;> omega
end

end MicroTest

/-- Claim C1: if the aggregate report satisfies the partition equation
when `run` starts (as the constructor-fresh report does), it satisfies it
after `run` resolves, because every visited test bumps `total` exactly
once, together with exactly one of `passed`, `failed`, `skipped`; the
three outcome counters also never decrease during the run. -/
theorem c1_total_partition (e : Engine)
    (h : e.results.total = e.results.passed + e.results.failed + e.results.skipped) :
    (MicroTest.run e).results.total =
        (MicroTest.run e).results.passed + (MicroTest.run e).results.failed +
          (MicroTest.run e).results.skipped ∧
    e.results.passed ≤ (MicroTest.run e).results.passed ∧
    e.results.failed ≤ (MicroTest.run e).results.failed ∧
    e.results.skipped ≤ (MicroTest.run e).results.skipped := by
  obtain ⟨s1, s2, s3, s4, s5, s6⟩ := MicroTest.runSuites_spec e.suites e.results
  have j1 : (MicroTest.run e).results.passed =
      (MicroTest.runSuites e.suites e.results).passed := rfl
  have j2 : (MicroTest.run e).results.failed =
      (MicroTest.runSuites e.suites e.results).failed := rfl
  have j3 : (MicroTest.run e).results.skipped =
      (MicroTest.runSuites e.suites e.results).skipped := rfl
  have j4 : (MicroTest.run e).results.total =
      (MicroTest.runSuites e.suites e.results).total := rfl
  omega

/-- Claim C1 witness: the partition equation holds for the report of a
run over the one-test tree starting from the constructor-fresh report. -/
theorem c1_witness :
    (MicroTest.run engine0).results.total =
      (MicroTest.run engine0).results.passed +
        (MicroTest.run engine0).results.failed +
        (MicroTest.run engine0).results.skipped :=
  (c1_total_partition engine0 rfl).1

/-- Claim C2, counterexample: `run` never resets `this.results`, so on
the one-suite tree with one counted test the first call reports
`total = 1` but the second call on the very same engine reports
`total = 2`, not the `total = 1` a fresh report would give. -/
theorem c2_counterexample :
    (MicroTest.run engine0).results.total = 1 ∧
    (MicroTest.run (MicroTest.run engine0)).results.total = 2 ∧
    (MicroTest.run (MicroTest.run engine0)).results.total ≠ 1 :=
  ⟨by decide, by decide, by decide⟩

/-- Claim C2, amended: each `run` invocation accumulates counters and
suite records into the one process-wide results object instead of
producing a fresh report: starting from the constructor-fresh report, a
second `run` on the same tree doubles every counter and the length of
the suites list. -/
theorem c2_amended_accumulation (e : Engine) (h : e.results = initialResults) :
    (MicroTest.run (MicroTest.run e)).results.total =
        2 * (MicroTest.run e).results.total ∧
    (MicroTest.run (MicroTest.run e)).results.passed =
        2 * (MicroTest.run e).results.passed ∧
    (MicroTest.run (MicroTest.run e)).results.failed =
        2 * (MicroTest.run e).results.failed ∧
    (MicroTest.run (MicroTest.run e)).results.skipped =
        2 * (MicroTest.run e).results.skipped ∧
    (MicroTest.run (MicroTest.run e)).results.suites.length =
        2 * (MicroTest.run e).results.suites.length := by
  obtain ⟨s1, s2, s3, s4, s5, s6⟩ := MicroTest.runSuites_spec e.suites e.results
  obtain ⟨u1, u2, u3, u4, u5, u6⟩ :=
    MicroTest.runSuites_spec e.suites (MicroTest.run e).results
  have j1 : (MicroTest.run e).results.passed =
      (MicroTest.runSuites e.suites e.results).passed := rfl
  have j2 : (MicroTest.run e).results.failed =
      (MicroTest.runSuites e.suites e.results).failed := rfl
  have j3 : (MicroTest.run e).results.skipped =
      (MicroTest.runSuites e.suites e.results).skipped := rfl
  have j4 : (MicroTest.run e).results.total =
      (MicroTest.runSuites e.suites e.results).total := rfl
  have j5 : (MicroTest.run e).results.suites.length =
      (MicroTest.runSuites e.suites e.results).suites.length := rfl
  have k1 : (MicroTest.run (MicroTest.run e)).results.passed =
      (MicroTest.runSuites e.suites (MicroTest.run e).results).passed := rfl
  have k2 : (MicroTest.run (MicroTest.run e)).results.failed =
      (MicroTest.runSuites e.suites (MicroTest.run e).results).failed := rfl
  have k3 : (MicroTest.run (MicroTest.run e)).results.skipped =
      (MicroTest.runSuites e.suites (MicroTest.run e).results).skipped := rfl
  have k4 : (MicroTest.run (MicroTest.run e)).results.total =
      (MicroTest.runSuites e.suites (MicroTest.run e).results).total := rfl
  have k5 : (MicroTest.run (MicroTest.run e)).results.suites.length =
      (MicroTest.runSuites e.suites (MicroTest.run e).results).suites.length := rfl
  have z1 : e.results.passed = 0 := by rw [h]; rfl
  have z2 : e.results.failed = 0 := by rw [h]; rfl
  have z3 : e.results.skipped = 0 := by rw [h]; rfl
  have z4 : e.results.total = 0 := by rw [h]; rfl
  have z5 : e.results.suites.length = 0 := by rw [h]; rfl
  omega

/-- Claim C2 amended witness: on the concrete one-test engine the second
run doubles the total of the first. -/
theorem c2_amended_witness :
    (MicroTest.run (MicroTest.run engine0)).results.total =
      2 * (MicroTest.run engine0).results.total :=
  (c2_amended_accumulation engine0 rfl).1

namespace MicroTest

theorem runTestsLoop_filter_only (beH aeH : List Async) (ts : List TestCase) :
    ∀ (sr : SuiteResult) (r : Results),
      runTestsLoop beH aeH true (ts.filter fun t => t.only) sr r =
        runTestsLoop beH aeH true ts sr r := by
  induction ts with
  | nil => intro sr r; rfl
  | cons t rest ih =>
    intro sr r
    by_cases h : t.only = true
    · simp [List.filter_cons, h, runTestsLoop, ih]
    · simp at h
      simp [List.filter_cons, h, runTestsLoop, ih]

theorem any_filter_only (ts : List TestCase)
    (h : (ts.any fun t => t.only) = true) :
    ((ts.filter fun t => t.only).any fun t => t.only) = true := by
  simp only [List.any_eq_true] at h ⊢
  obtain ⟨x, hx, hpx⟩ := h
  exact ⟨x, List.mem_filter.mpr ⟨hx, hpx⟩, hpx⟩

mutual
theorem runSuite_focusAux (s : Suite) (r : Results) :
    runSuite (Suite.focusFiltered s) r = runSuite s r := by
  match s with
  | .mk n tests beH aeH baH aaH nested =>
    by_cases h : (tests.any fun t => t.only) = true
    · have hft := any_filter_only tests h
      simp only [Suite.focusFiltered, h, if_true, ite_true]
      simp [runSuite, hft, h, runTestsLoop_filter_only,
        runSuites_focusAux nested]
    · simp only [Suite.focusFiltered, h, if_false, ite_false]
      simp [runSuite, runSuites_focusAux nested]

theorem runSuites_focusAux (l : List Suite) (r : Results) :
    runSuites (focusFilteredList l) r = runSuites l r := by
  match l with
  | [] => rfl
  | s :: rest =>
    simp [focusFilteredList, runSuites, runSuite_focusAux s,
      runSuites_focusAux rest]
end

end MicroTest

/-- Claim C4: focus mode is resolved per suite node.  Running any tree
produces exactly the same aggregate results as running the tree in which
every node that has an `only`-marked direct test keeps only its
`only`-marked direct tests (so its non-focused direct tests are absent
entirely: never executed and counted in no counter), while every node
without an `only`-marked direct test keeps all of its tests; sibling,
ancestor and descendant suites are each filtered only by their own
markers. -/
theorem c4_focus_per_node (s : Suite) (r : Results) :
    MicroTest.runSuite s r =
      MicroTest.runSuite (MicroTest.Suite.focusFiltered s) r :=
  (MicroTest.runSuite_focusAux s r).symm

/-- Claim C4 witness: the per-node focus equivalence applied to the
concrete two-test suite whose first test is focus-marked. -/
theorem c4_witness :
    MicroTest.runSuite focusSuite initialResults =
      MicroTest.runSuite (MicroTest.Suite.focusFiltered focusSuite)
        initialResults :=
  c4_focus_per_node focusSuite initialResults

/-- Claim C8 amended witness: the top-level characterization applied to
two single-field objects with different top-level constructors. -/
theorem c8_witness :
    Expect.strictEqual (.obj "Object" [("k", .num 2)]) (.obj "Other" [("k", .num 2)]) =
      ((("Object" : String) == "Other") &&
        Expect.deepEqual (.obj "Object" [("k", .num 2)])
          (.obj "Other" [("k", .num 2)])) :=
  c8_amended.1 "Object" "Other" [("k", .num 2)] [("k", .num 2)]

/-- Claim C9 amended witness: the duration formula applied to the
concrete test with a 10ms hook and 5ms body. -/
theorem c9_witness :
    (MicroTest.runTest c9test [c9hook] []).result.duration =
      (MicroTest.runBeforeEach [c9hook]).time +
        ((MicroTest.runBeforeEach [c9hook]).error.elim
          (MicroTest.withTimeout c9test.fn c9test.timeout).duration fun _ => 0) :=
  c9_amended c9test [c9hook] []
